import Mathlib

/-!
Verification of the calorie-tracker backend services
(`src/services/bmi.service.js`, `src/services/meal.service.js` and the
duplicated meal-service variant).

Numbers are modelled as exact rationals (`ℚ`); JavaScript `Math.round`
is half-up rounding, `⌊x + 1/2⌋`.  Optional / possibly-missing inputs
are modelled as `Option`.  The JavaScript truthiness test `!x` on a
number rejects exactly a missing value or `0`, which the `≤ 0` guards
subsume.  Database rows live in explicit lists inside a `Store` record;
Prisma queries become list traversals in row order.
-/

namespace CalorieTracker

/-- JavaScript `Math.round`: rounds half upward, i.e. `⌊x + 1/2⌋`. -/
def jsRound (x : ℚ) : ℤ := (x + 1/2).num / ((x + 1/2).den : ℤ)

/-- Embedding of `calculateBMI` from src/src/services/bmi.service.js.
Returns `none` when either input is absent or `≤ 0`; otherwise
`weight / (height in metres)²` rounded to one decimal place. -/
def calculateBMI (weight height : Option ℚ) : Option ℚ :=
  match weight, height with
  | some w, some h =>
    if w ≤ 0 ∨ h ≤ 0 then none
    else
      let heightInMeters := h / 100
      let bmi := w / (heightInMeters * heightInMeters)
      some ((jsRound (bmi * 10) : ℚ) / 10)
  | _, _ => none

/-- Character-wise lower-casing, the effect of JavaScript
`toLowerCase()` (and of `String.toLower`, whose `mapAux` recursion the
kernel cannot evaluate) on the strings involved here. -/
def jsToLower (s : String) : String := ⟨s.data.map Char.toLower⟩

/-- Embedding of `calculateBMR` from src/src/services/bmi.service.js
(Harris-Benedict).  Gender is compared case-insensitively against
"male" / "female"; any missing or non-positive numeric input yields `none`. -/
def calculateBMR (weight height age : Option ℚ) (gender : Option String) :
    Option ℤ :=
  match weight, height, age, gender with
  | some w, some h, some a, some g =>
    if w ≤ 0 ∨ h ≤ 0 ∨ a ≤ 0 then none
    else if jsToLower g = "male" then
      some (jsRound (66.47 + 13.75 * w + 5.003 * h - 6.755 * a))
    else if jsToLower g = "female" then
      some (jsRound (655.1 + 9.563 * w + 1.850 * h - 4.676 * a))
    else none
  | _, _, _, _ => none

/-- Embedding of `calculateDailyCalorieGoal` from
src/src/services/bmi.service.js.  Multiplies BMR by the activity level,
adjusts by the goal ("lose": −400, "gain": +500) and rounds at the end. -/
def calculateDailyCalorieGoal (bmr activityLevel : Option ℚ)
    (goal : String) : Option ℤ :=
  match bmr, activityLevel with
  | some b, some al =>
    if b ≤ 0 ∨ al ≤ 0 then none
    else
      let dailyCalories := b * al
      let adjusted :=
        if goal = "lose" then dailyCalories - 400
        else if goal = "gain" then dailyCalories + 500
        else dailyCalories
      some (jsRound adjusted)
  | _, _ => none

/-- Calendar instant, as a JavaScript `Date`: absolute day index plus
milliseconds within that day.  `setHours(0,0,0,0)` zeroes `msOfDay`. -/
structure Moment where
  day : ℤ
  msOfDay : ℕ
deriving DecidableEq, Repr

/-- Millisecond timestamp of a `Moment`; JavaScript `Date` comparison
compares these values. -/
def Moment.toMillis (d : Moment) : ℤ := d.day * 86400000 + (d.msOfDay : ℤ)

/-- Start of the day of `d`, as produced by `setHours(0, 0, 0, 0)`. -/
def dayStart (d : Moment) : Moment := ⟨d.day, 0⟩

/-- End of the day of `d`, as produced by `setHours(23, 59, 59, 999)`. -/
def dayEnd (d : Moment) : Moment := ⟨d.day, 86399999⟩

/-- FoodItem child row, with the columns written by the meal service. -/
structure FoodItem where
  foodName : String
  quantity : ℚ
  unit : String
  calories : ℚ
  protein : ℚ
  carbs : ℚ
  fats : ℚ
deriving DecidableEq, Repr

/-- Meal row.  Nutrient columns are optional, matching the `|| 0`
fallbacks the services apply when reading them. -/
structure Meal where
  id : ℕ
  userId : ℕ
  mealType : String
  description : Option String
  imageUrl : Option String
  totalCalories : Option ℚ
  protein : Option ℚ
  carbs : Option ℚ
  fats : Option ℚ
  fiber : Option ℚ
  mealDate : Moment
deriving DecidableEq, Repr

/-- User row restricted to the column the meal service reads. -/
structure User where
  id : ℕ
  dailyCalorieGoal : Option ℤ
deriving DecidableEq, Repr

/-- DailySummary row, unique per `(userId, date)` with `date` a day start. -/
structure DailySummary where
  userId : ℕ
  date : Moment
  totalCalories : ℚ
  totalProtein : ℚ
  totalCarbs : ℚ
  totalFats : ℚ
  calorieGoal : ℤ
  mealsCount : ℕ
deriving DecidableEq, Repr

/-- Database state: the tables touched by the meal service.  FoodItem
rows carry their parent meal id. -/
structure Store where
  meals : List Meal
  foodItems : List (ℕ × FoodItem)
  users : List User
  summaries : List DailySummary
deriving Repr

/-- Meal-row filter used by `updateDailySummary`: same user and
`dayStart ≤ mealDate ≤ dayEnd` of the requested date. -/
def mealInDay (m : Meal) (uid : ℕ) (date : Moment) : Bool :=
  m.userId == uid &&
    decide ((dayStart date).toMillis ≤ m.mealDate.toMillis) &&
    decide (m.mealDate.toMillis ≤ (dayEnd date).toMillis)

/-- Meals of `uid` on the day of `date`, in row order. -/
def mealsForDay (db : Store) (uid : ℕ) (date : Moment) : List Meal :=
  db.meals.filter (fun m => mealInDay m uid date)

/-- Lookup of `prisma.user.findUnique` by id. -/
def findUser (db : Store) (uid : ℕ) : Option User :=
  db.users.find? (fun u => u.id == uid)

/-- Value of `user?.dailyCalorieGoal || 2000`: 2000 when the user row is
missing or its goal column is NULL or 0, the stored goal otherwise. -/
def effectiveCalorieGoal (u : Option User) : ℤ :=
  match u with
  | some user =>
    match user.dailyCalorieGoal with
    | some g => if g = 0 then 2000 else g
    | none => 2000
  | none => 2000

/-- SQL `SUM` over a nullable column: NULL values are skipped and the
result is NULL when no value is present. -/
def sqlSum : List (Option ℚ) → Option ℚ
  | [] => none
  | none :: xs => sqlSum xs
  | some v :: xs =>
    match sqlSum xs with
    | none => some v
    | some s => some (v + s)

/-- Summary row computed by `updateDailySummary` in
src/src/services/meal.service.js: database aggregation (`_sum`, `_count`)
over the day's meals, each `_sum` read through `|| 0`. -/
def computeDailySummary (db : Store) (uid : ℕ) (date : Moment) :
    DailySummary :=
  let meals := mealsForDay db uid date
  { userId := uid
    date := dayStart date
    totalCalories := (sqlSum (meals.map (fun m => m.totalCalories))).getD 0
    totalProtein := (sqlSum (meals.map (fun m => m.protein))).getD 0
    totalCarbs := (sqlSum (meals.map (fun m => m.carbs))).getD 0
    totalFats := (sqlSum (meals.map (fun m => m.fats))).getD 0
    calorieGoal := effectiveCalorieGoal (findUser db uid)
    mealsCount := meals.length }

/-- Key test of the `userId_date` unique constraint. -/
def summaryKeyMatch (r : DailySummary) (uid : ℕ) (d : Moment) : Bool :=
  r.userId == uid && r.date == d

/-- Behaviour of `prisma.dailySummary.upsert`: replace the row with the
same `(userId, date)` key when one exists, insert otherwise. -/
def upsertSummary (db : Store) (s : DailySummary) : Store :=
  let replaced :=
    db.summaries.map (fun r => if summaryKeyMatch r s.userId s.date then s else r)
  if db.summaries.any (fun r => summaryKeyMatch r s.userId s.date) then
    { db with summaries := replaced }
  else
    { db with summaries := db.summaries ++ [s] }

/-- Embedding of `updateDailySummary` from
src/src/services/meal.service.js: recompute the day's summary by
database aggregation and upsert it, returning the upserted row. -/
def updateDailySummary (uid : ℕ) (date : Moment) (db : Store) :
    Store × DailySummary :=
  let s := computeDailySummary db uid date
  (upsertSummary db s, s)

/-- Summary row computed by the duplicated meal-service variant
(src/unnamed/part_009): `findMany` for the day followed by an in-memory
`reduce` with `|| 0` on every nutrient, and `meals.length` as count. -/
def computeDailySummaryLegacy (db : Store) (uid : ℕ) (date : Moment) :
    DailySummary :=
  let meals := mealsForDay db uid date
  { userId := uid
    date := dayStart date
    totalCalories :=
      meals.foldl (fun acc m => acc + m.totalCalories.getD 0) 0
    totalProtein := meals.foldl (fun acc m => acc + m.protein.getD 0) 0
    totalCarbs := meals.foldl (fun acc m => acc + m.carbs.getD 0) 0
    totalFats := meals.foldl (fun acc m => acc + m.fats.getD 0) 0
    calorieGoal := effectiveCalorieGoal (findUser db uid)
    mealsCount := meals.length }

/-- Embedding of `updateDailySummary` from the duplicated variant
src/unnamed/part_009 (in-memory reduce instead of database aggregation). -/
def updateDailySummaryLegacy (uid : ℕ) (date : Moment) (db : Store) :
    Store × DailySummary :=
  let s := computeDailySummaryLegacy db uid date
  (upsertSummary db s, s)

/-- Embedding of `createMeal`: insert the meal row and its food-item
children, then recompute the day's summary.  The generated row id and
the applied `mealDate || new Date()` default are part of `m`; the
notification side effect is outside the modelled state. -/
def createMeal (m : Meal) (items : List FoodItem) (db : Store) :
    Store × Meal :=
  let db1 := { db with
    meals := db.meals ++ [m]
    foodItems := db.foodItems ++ items.map (fun it => (m.id, it)) }
  ((updateDailySummary m.userId m.mealDate db1).1, m)

/-- Embedding of `getMealById`: `findFirst` by meal id and owning user. -/
def getMealById (mealId uid : ℕ) (db : Store) : Option Meal :=
  db.meals.find? (fun m => m.id == mealId && m.userId == uid)

/-- Update payload of `updateMeal`.  An outer `none` means the field is
absent from the patch; nullable columns carry an inner `Option`. -/
structure MealPatch where
  mealType : Option String
  description : Option (Option String)
  imageUrl : Option (Option String)
  totalCalories : Option (Option ℚ)
  protein : Option (Option ℚ)
  carbs : Option (Option ℚ)
  fats : Option (Option ℚ)
  fiber : Option (Option ℚ)
  mealDate : Option Moment
  foodItems : Option (List FoodItem)
deriving Repr

/-- Field-level effect of `tx.meal.update` with the scalar part of the
patch (`mealData`, the patch minus `foodItems`). -/
def applyMealPatch (m : Meal) (p : MealPatch) : Meal :=
  { m with
    mealType := p.mealType.getD m.mealType
    description := p.description.getD m.description
    imageUrl := p.imageUrl.getD m.imageUrl
    totalCalories := p.totalCalories.getD m.totalCalories
    protein := p.protein.getD m.protein
    carbs := p.carbs.getD m.carbs
    fats := p.fats.getD m.fats
    fiber := p.fiber.getD m.fiber
    mealDate := p.mealDate.getD m.mealDate }

/-- Transaction body of `updateMeal`: update the meal row and, when the
patch carries `foodItems`, delete every existing child and create the
new set. -/
def updateMealTx (db : Store) (mealId : ℕ) (p : MealPatch) : Store :=
  { db with
    meals :=
      db.meals.map (fun m => if m.id == mealId then applyMealPatch m p else m)
    foodItems :=
      match p.foodItems with
      | none => db.foodItems
      | some items =>
        db.foodItems.filter (fun fi => fi.1 != mealId) ++
          items.map (fun it => (mealId, it)) }

/-- Embedding of `updateMeal`: ownership check, transactional update,
then daily-summary recomputation for the meal's pre-update date. -/
def updateMeal (mealId uid : ℕ) (p : MealPatch) (db : Store) :
    Store × Option Meal :=
  match getMealById mealId uid db with
  | none => (db, none)
  | some existing =>
    let dbTx := updateMealTx db mealId p
    let updated := dbTx.meals.find? (fun m => m.id == mealId)
    ((updateDailySummary uid existing.mealDate dbTx).1, updated)

/-- Embedding of `deleteMeal`: ownership check, delete the meal row
(children go with it through the relation), then recompute the summary
of the meal's day. -/
def deleteMeal (mealId uid : ℕ) (db : Store) : Store × Option Meal :=
  match getMealById mealId uid db with
  | none => (db, none)
  | some existing =>
    let db1 := { db with
      meals := db.meals.filter (fun m => m.id != mealId)
      foodItems := db.foodItems.filter (fun fi => fi.1 != mealId) }
    ((updateDailySummary uid existing.mealDate db1).1, some existing)

/-- Food items currently attached to a meal, in row order. -/
def foodItemsOfMeal (db : Store) (mealId : ℕ) : List FoodItem :=
  (db.foodItems.filter (fun fi => fi.1 == mealId)).map (fun fi => fi.2)

/-- Summary rows stored for a `(userId, date)` key, in row order. -/
def summariesFor (db : Store) (uid : ℕ) (d : Moment) : List DailySummary :=
  db.summaries.filter (fun r => summaryKeyMatch r uid d)

/-- Result record of `getDailyAnalytics` (macros flattened). -/
structure DailyAnalytics where
  date : Moment
  calorieGoal : ℤ
  consumed : ℚ
  remaining : ℚ
  percentConsumed : ℤ
  protein : ℚ
  carbs : ℚ
  fats : ℚ
  mealsCount : ℕ
deriving Repr

/-- Lookup of the unique summary row for `(userId, dayStart date)`. -/
def findSummary (db : Store) (uid : ℕ) (d : Moment) : Option DailySummary :=
  db.summaries.find? (fun s => summaryKeyMatch s uid d)

/-- Embedding of `getDailyAnalytics` from
src/src/services/meal.service.js.  The goal used in the percentage is
`user?.dailyCalorieGoal || 2000`. -/
def getDailyAnalytics (uid : ℕ) (date : Moment) (db : Store) :
    DailyAnalytics :=
  let ds := dayStart date
  let summary := findSummary db uid ds
  let calorieGoal := effectiveCalorieGoal (findUser db uid)
  let consumed := match summary with | some s => s.totalCalories | none => 0
  { date := ds
    calorieGoal := calorieGoal
    consumed := consumed
    remaining := (calorieGoal : ℚ) - consumed
    percentConsumed := jsRound (consumed / (calorieGoal : ℚ) * 100)
    protein := match summary with | some s => s.totalProtein | none => 0
    carbs := match summary with | some s => s.totalCarbs | none => 0
    fats := match summary with | some s => s.totalFats | none => 0
    mealsCount := match summary with | some s => s.mealsCount | none => 0 }

/-- Entry of the `weeklyTrends` array of `getMonthlyAnalytics`. -/
structure WeekTrend where
  week : ℕ
  totalCalories : ℚ
  averageCalories : ℤ
  daysTracked : ℕ
deriving DecidableEq, Repr

/-- Start of window `i` (0-based): `startOfMonth` shifted by `7·i` days
via `setDate`, keeping the time of day. -/
def weekWindowStart (startOfMonth : Moment) (i : ℕ) : Moment :=
  ⟨startOfMonth.day + 7 * i, startOfMonth.msOfDay⟩

/-- End of window `i`: its start shifted by 6 further days. -/
def weekWindowEnd (startOfMonth : Moment) (i : ℕ) : Moment :=
  ⟨startOfMonth.day + 7 * i + 6, startOfMonth.msOfDay⟩

/-- Summaries falling in window `i`:
`s.date >= weekStart && s.date <= weekEnd` on `Date` values. -/
def weekSummaries (startOfMonth : Moment) (summaries : List DailySummary)
    (i : ℕ) : List DailySummary :=
  summaries.filter (fun s =>
    decide ((weekWindowStart startOfMonth i).toMillis ≤ s.date.toMillis) &&
    decide (s.date.toMillis ≤ (weekWindowEnd startOfMonth i).toMillis))

/-- Trend entry of window `i`: total over the window, rounded average
(0 when no day is tracked), and the number of tracked days. -/
def weekTrendOf (startOfMonth : Moment) (summaries : List DailySummary)
    (i : ℕ) : WeekTrend :=
  let ws := weekSummaries startOfMonth summaries i
  let weekCalories := ws.foldl (fun sum s => sum + s.totalCalories) 0
  { week := i + 1
    totalCalories := weekCalories
    averageCalories :=
      if 0 < ws.length then jsRound (weekCalories / (ws.length : ℚ)) else 0
    daysTracked := ws.length }

/-- The `weeklyTrends` loop of `getMonthlyAnalytics`: exactly the
windows `i = 0, 1, 2, 3`, in order, over the already-fetched summaries. -/
def weeklyTrends (startOfMonth : Moment) (summaries : List DailySummary) :
    List WeekTrend :=
  (List.range 4).map (weekTrendOf startOfMonth summaries)

/-- Summaries fetched by `getMonthlyAnalytics`:
`startOfMonth ≤ date ≤ endOfMonth` for the user, in row order. -/
def monthlySummaries (db : Store) (uid : ℕ)
    (startOfMonth endOfMonth : Moment) : List DailySummary :=
  db.summaries.filter (fun s =>
    s.userId == uid &&
      decide (startOfMonth.toMillis ≤ s.date.toMillis) &&
      decide (s.date.toMillis ≤ endOfMonth.toMillis))

/-- The `weeklyTrends` field of the `getMonthlyAnalytics` result. -/
def getMonthlyWeeklyTrends (db : Store) (uid : ℕ)
    (startOfMonth endOfMonth : Moment) : List WeekTrend :=
  weeklyTrends startOfMonth (monthlySummaries db uid startOfMonth endOfMonth)

theorem jsRound_eq_floor (x : ℚ) : jsRound x = ⌊x + 1/2⌋ :=
  (Rat.floor_def).symm

theorem jsRound_sub_400 (x : ℚ) : jsRound (x - 400) = jsRound x - 400 := by
  rw [jsRound_eq_floor, jsRound_eq_floor,
    show x - 400 + 1/2 = x + 1/2 - (400 : ℤ) by push_cast; ring,
    Int.floor_sub_int]

theorem jsRound_add_500 (x : ℚ) : jsRound (x + 500) = jsRound x + 500 := by
  rw [jsRound_eq_floor, jsRound_eq_floor,
    show x + 500 + 1/2 = x + 1/2 + (500 : ℤ) by push_cast; ring,
    Int.floor_add_int]

theorem calculateBMI_pos (w h : ℚ) (hw : 0 < w) (hh : 0 < h) :
    calculateBMI (some w) (some h) =
      some ((jsRound (w / (h / 100) ^ 2 * 10) : ℚ) / 10) := by
  simp only [calculateBMI]
  rw [if_neg (by push_neg; exact ⟨hw, hh⟩)]
  ring_nf

theorem calculateBMI_eval : calculateBMI (some 70) (some 175) = some 22.9 := by
  rw [calculateBMI_pos 70 175 (by norm_num) (by norm_num)]
  have h : jsRound ((70 : ℚ) / ((175 : ℚ) / 100) ^ 2 * 10) = 229 := by
    rw [jsRound_eq_floor]
    norm_num [Int.floor_eq_iff]
  rw [h]
  norm_num

theorem calculateBMR_male (w h a : ℚ) (g : String)
    (hw : 0 < w) (hh : 0 < h) (ha : 0 < a) (hg : jsToLower g = "male") :
    calculateBMR (some w) (some h) (some a) (some g) =
      some (jsRound (66.47 + 13.75 * w + 5.003 * h - 6.755 * a)) := by
  simp only [calculateBMR]
  rw [if_neg (by push_neg; exact ⟨hw, hh, ha⟩), if_pos hg]

theorem calculateBMR_female (w h a : ℚ) (g : String)
    (hw : 0 < w) (hh : 0 < h) (ha : 0 < a) (hg : jsToLower g = "female") :
    calculateBMR (some w) (some h) (some a) (some g) =
      some (jsRound (655.1 + 9.563 * w + 1.850 * h - 4.676 * a)) := by
  simp only [calculateBMR]
  rw [if_neg (by push_neg; exact ⟨hw, hh, ha⟩), if_neg (by rw [hg]; decide),
    if_pos hg]

theorem calculateBMR_eval_male :
    calculateBMR (some 70) (some 175) (some 30) (some "male") = some 1702 := by
  rw [calculateBMR_male 70 175 30 "male" (by norm_num) (by norm_num)
    (by norm_num) (by decide)]
  have h : jsRound ((66.47 : ℚ) + 13.75 * 70 + 5.003 * 175 - 6.755 * 30) =
      1702 := by
    rw [jsRound_eq_floor]
    norm_num [Int.floor_eq_iff]
  rw [h]

theorem calculateBMR_eval_female :
    calculateBMR (some 70) (some 175) (some 30) (some "female") =
      some 1508 := by
  rw [calculateBMR_female 70 175 30 "female" (by norm_num) (by norm_num)
    (by norm_num) (by decide)]
  have h : jsRound ((655.1 : ℚ) + 9.563 * 70 + 1.850 * 175 - 4.676 * 30) =
      1508 := by
    rw [jsRound_eq_floor]
    norm_num [Int.floor_eq_iff]
  rw [h]

theorem calculateDailyCalorieGoal_pos (b al : ℚ) (goal : String)
    (hb : 0 < b) (hal : 0 < al) :
    calculateDailyCalorieGoal (some b) (some al) goal =
      some (jsRound (if goal = "lose" then b * al - 400
        else if goal = "gain" then b * al + 500 else b * al)) := by
  simp only [calculateDailyCalorieGoal]
  rw [if_neg (by push_neg; exact ⟨hb, hal⟩)]

theorem calorieGoal_eval_lose :
    calculateDailyCalorieGoal (some 1701) (some 1.55) "lose" = some 2237 := by
  rw [calculateDailyCalorieGoal_pos 1701 1.55 "lose" (by norm_num)
    (by norm_num), if_pos rfl]
  have h : jsRound ((1701 : ℚ) * 1.55 - 400) = 2237 := by
    rw [jsRound_eq_floor]
    norm_num [Int.floor_eq_iff]
  rw [h]

theorem calorieGoal_eval_gain :
    calculateDailyCalorieGoal (some 1701) (some 1.55) "gain" = some 3137 := by
  rw [calculateDailyCalorieGoal_pos 1701 1.55 "gain" (by norm_num)
    (by norm_num), if_neg (by decide), if_pos rfl]
  have h : jsRound ((1701 : ℚ) * 1.55 + 500) = 3137 := by
    rw [jsRound_eq_floor]
    norm_num [Int.floor_eq_iff]
  rw [h]

theorem bmr_male_round :
    jsRound ((66.47 : ℚ) + 13.75 * 70 + 5.003 * 175 - 6.755 * 30) = 1702 := by
  rw [jsRound_eq_floor]
  norm_num [Int.floor_eq_iff]

theorem bmr_female_round :
    jsRound ((655.1 : ℚ) + 9.563 * 70 + 1.850 * 175 - 4.676 * 30) = 1508 := by
  rw [jsRound_eq_floor]
  norm_num [Int.floor_eq_iff]

theorem calorieGoal_eval_maintain :
    calculateDailyCalorieGoal (some 1701) (some 1.55) "maintain" =
      some 2637 := by
  rw [calculateDailyCalorieGoal_pos 1701 1.55 "maintain" (by norm_num)
    (by norm_num), if_neg (by decide), if_neg (by decide)]
  have h : jsRound ((1701 : ℚ) * 1.55) = 2637 := by
    rw [jsRound_eq_floor]
    norm_num [Int.floor_eq_iff]
  rw [h]

/-- C6: `calculateBMI` returns null when either input is missing or `≤ 0`
and otherwise `weight / (height_m)²` rounded to one decimal place; in
particular `calculateBMI(70, 175) = 22.9`, `calculateBMI(0, 175) = null`
and `calculateBMI(70, 0) = null`. -/
theorem claim_C6_calculateBMI_spec :
    (∀ h, calculateBMI none h = none) ∧
    (∀ w, calculateBMI w none = none) ∧
    (∀ w h : ℚ, w ≤ 0 → calculateBMI (some w) (some h) = none) ∧
    (∀ w h : ℚ, h ≤ 0 → calculateBMI (some w) (some h) = none) ∧
    (∀ w h : ℚ, 0 < w → 0 < h →
      calculateBMI (some w) (some h) =
        some ((jsRound (w / (h / 100) ^ 2 * 10) : ℚ) / 10)) ∧
    calculateBMI (some 70) (some 175) = some 22.9 ∧
    calculateBMI (some 0) (some 175) = none ∧
    calculateBMI (some 70) (some 0) = none := by
  refine ⟨fun h => by cases h <;> rfl, fun w => by cases w <;> rfl,
    fun w h hw => ?_, fun w h hh => ?_, calculateBMI_pos,
    calculateBMI_eval, ?_, ?_⟩
  · simp only [calculateBMI]
    rw [if_pos (Or.inl hw)]
  · simp only [calculateBMI]
    rw [if_pos (Or.inr hh)]
  · simp only [calculateBMI]
    rw [if_pos (Or.inl le_rfl)]
  · simp only [calculateBMI]
    rw [if_pos (Or.inr le_rfl)]

/-- C6 witness: the guarded branches of `claim_C6_calculateBMI_spec` at
concrete inputs. -/
theorem claim_C6_calculateBMI_spec_witness :
    calculateBMI (some (-5)) (some 175) = none ∧
    calculateBMI (some 70) (some (-5)) = none ∧
    calculateBMI (some 50) (some 200) =
      some ((jsRound ((50 : ℚ) / ((200 : ℚ) / 100) ^ 2 * 10) : ℚ) / 10) :=
  ⟨claim_C6_calculateBMI_spec.2.2.1 (-5) 175 (by norm_num),
   claim_C6_calculateBMI_spec.2.2.2.1 70 (-5) (by norm_num),
   claim_C6_calculateBMI_spec.2.2.2.2.1 50 200 (by norm_num) (by norm_num)⟩

/-- C5 counterexample: the spec's male example is wrong — the code returns
1702 for `calculateBMR(70, 175, 30, "male")` (66.47 + 962.5 + 875.525 −
202.65 = 1701.845 rounds to 1702, not 1701). -/
theorem claim_C5_calculateBMR_male_example_false :
    calculateBMR (some 70) (some 175) (some 30) (some "male") ≠
      some 1701 := by
  rw [calculateBMR_eval_male]
  decide

/-- C5 (amended): Harris-Benedict with the stated null guards and
case-insensitive gender; the male example value is 1702 (not 1701), the
female example 1508 as stated. -/
theorem claim_C5_calculateBMR_spec :
    (∀ h a g, calculateBMR none h a g = none) ∧
    (∀ w a g, calculateBMR w none a g = none) ∧
    (∀ w h g, calculateBMR w h none g = none) ∧
    (∀ w h a, calculateBMR w h a none = none) ∧
    (∀ w h a : ℚ, ∀ g, w ≤ 0 →
      calculateBMR (some w) (some h) (some a) (some g) = none) ∧
    (∀ w h a : ℚ, ∀ g, h ≤ 0 →
      calculateBMR (some w) (some h) (some a) (some g) = none) ∧
    (∀ w h a : ℚ, ∀ g, a ≤ 0 →
      calculateBMR (some w) (some h) (some a) (some g) = none) ∧
    (∀ w h a : ℚ, ∀ g, jsToLower g ≠ "male" → jsToLower g ≠ "female" →
      calculateBMR (some w) (some h) (some a) (some g) = none) ∧
    (∀ w h a : ℚ, ∀ g, 0 < w → 0 < h → 0 < a → jsToLower g = "male" →
      calculateBMR (some w) (some h) (some a) (some g) =
        some (jsRound (66.47 + 13.75 * w + 5.003 * h - 6.755 * a))) ∧
    (∀ w h a : ℚ, ∀ g, 0 < w → 0 < h → 0 < a → jsToLower g = "female" →
      calculateBMR (some w) (some h) (some a) (some g) =
        some (jsRound (655.1 + 9.563 * w + 1.850 * h - 4.676 * a))) ∧
    calculateBMR (some 70) (some 175) (some 30) (some "male") = some 1702 ∧
    calculateBMR (some 70) (some 175) (some 30) (some "MALE") = some 1702 ∧
    calculateBMR (some 70) (some 175) (some 30) (some "female") =
      some 1508 := by
  refine ⟨fun h a g => by cases h <;> cases a <;> cases g <;> rfl,
    fun w a g => by cases w <;> cases a <;> cases g <;> rfl,
    fun w h g => by cases w <;> cases h <;> cases g <;> rfl,
    fun w h a => by cases w <;> cases h <;> cases a <;> rfl,
    fun w h a g hw => ?_, fun w h a g hh => ?_, fun w h a g ha => ?_,
    fun w h a g hm hf => ?_,
    fun w h a g hw hh ha hg => calculateBMR_male w h a g hw hh ha hg,
    fun w h a g hw hh ha hg => calculateBMR_female w h a g hw hh ha hg,
    calculateBMR_eval_male, ?_, calculateBMR_eval_female⟩
  · simp only [calculateBMR]
    rw [if_pos (Or.inl hw)]
  · simp only [calculateBMR]
    rw [if_pos (Or.inr (Or.inl hh))]
  · simp only [calculateBMR]
    rw [if_pos (Or.inr (Or.inr ha))]
  · simp only [calculateBMR]
    by_cases hguard : w ≤ 0 ∨ h ≤ 0 ∨ a ≤ 0
    · rw [if_pos hguard]
    · rw [if_neg hguard, if_neg hm, if_neg hf]
  · rw [calculateBMR_male 70 175 30 "MALE" (by norm_num) (by norm_num)
      (by norm_num) (by decide)]
    rw [bmr_male_round]

/-- C5 witness: the guarded and formula branches of
`claim_C5_calculateBMR_spec` at concrete inputs. -/
theorem claim_C5_calculateBMR_spec_witness :
    calculateBMR (some (-1)) (some 175) (some 30) (some "male") = none ∧
    calculateBMR (some 70) (some 175) (some 30) (some "dragon") = none ∧
    calculateBMR (some 80) (some 180) (some 25) (some "Male") =
      some (jsRound (66.47 + 13.75 * 80 + 5.003 * 180 - 6.755 * 25)) ∧
    calculateBMR (some 60) (some 160) (some 40) (some "FEMALE") =
      some (jsRound (655.1 + 9.563 * 60 + 1.850 * 160 - 4.676 * 40)) := by
  obtain ⟨-, -, -, -, hw0, -, -, hother, hmale, hfemale, -⟩ :=
    claim_C5_calculateBMR_spec
  exact ⟨hw0 (-1) 175 30 "male" (by norm_num),
    hother 70 175 30 "dragon" (by decide) (by decide),
    hmale 80 180 25 "Male" (by norm_num) (by norm_num) (by norm_num)
      (by decide),
    hfemale 60 160 40 "FEMALE" (by norm_num) (by norm_num) (by norm_num)
      (by decide)⟩

/-- C1 counterexample: the spec's example is wrong — the code returns 2237
for `calculateDailyCalorieGoal(1701, 1.55, "lose")` (1701 · 1.55 = 2636.55;
2636.55 − 400 = 2236.55 rounds to 2237, not 2236). -/
theorem claim_C1_dailyCalorieGoal_example_false :
    calculateDailyCalorieGoal (some 1701) (some 1.55) "lose" ≠
      some 2236 := by
  rw [calorieGoal_eval_lose]
  decide

/-- C1 (amended): `calculateDailyCalorieGoal` computes
`round(bmr · activityLevel)` then subtracts 400 for "lose", adds 500 for
"gain" and leaves it unchanged otherwise (the integer shift commutes with
the rounding, so the code's round-last order is the same function), and
returns null when bmr or activityLevel is missing or `≤ 0`; the example
values are 2237 / 3137 / 2637, not 2236 / 3136 / 2636. -/
theorem claim_C1_dailyCalorieGoal_spec :
    (∀ al goal, calculateDailyCalorieGoal none al goal = none) ∧
    (∀ b goal, calculateDailyCalorieGoal b none goal = none) ∧
    (∀ b al : ℚ, ∀ goal, b ≤ 0 →
      calculateDailyCalorieGoal (some b) (some al) goal = none) ∧
    (∀ b al : ℚ, ∀ goal, al ≤ 0 →
      calculateDailyCalorieGoal (some b) (some al) goal = none) ∧
    (∀ b al : ℚ, 0 < b → 0 < al →
      calculateDailyCalorieGoal (some b) (some al) "lose" =
        some (jsRound (b * al) - 400) ∧
      calculateDailyCalorieGoal (some b) (some al) "gain" =
        some (jsRound (b * al) + 500) ∧
      (∀ goal, goal ≠ "lose" → goal ≠ "gain" →
        calculateDailyCalorieGoal (some b) (some al) goal =
          some (jsRound (b * al)))) ∧
    calculateDailyCalorieGoal (some 1701) (some 1.55) "lose" = some 2237 ∧
    calculateDailyCalorieGoal (some 1701) (some 1.55) "gain" = some 3137 ∧
    calculateDailyCalorieGoal (some 1701) (some 1.55) "maintain" =
      some 2637 := by
  refine ⟨fun al goal => by cases al <;> rfl, fun b goal => by cases b <;> rfl,
    fun b al goal hb => ?_, fun b al goal hal => ?_,
    fun b al hb hal => ⟨?_, ?_, fun goal hg1 hg2 => ?_⟩,
    calorieGoal_eval_lose, calorieGoal_eval_gain, calorieGoal_eval_maintain⟩
  · simp only [calculateDailyCalorieGoal]
    rw [if_pos (Or.inl hb)]
  · simp only [calculateDailyCalorieGoal]
    rw [if_pos (Or.inr hal)]
  · rw [calculateDailyCalorieGoal_pos b al "lose" hb hal, if_pos rfl,
      jsRound_sub_400]
  · rw [calculateDailyCalorieGoal_pos b al "gain" hb hal,
      if_neg (by decide), if_pos rfl, jsRound_add_500]
  · rw [calculateDailyCalorieGoal_pos b al goal hb hal, if_neg hg1,
      if_neg hg2]

/-- C1 witness: the adjustment and guard branches of
`claim_C1_dailyCalorieGoal_spec` at concrete inputs. -/
theorem claim_C1_dailyCalorieGoal_spec_witness :
    calculateDailyCalorieGoal (some 1000) (some 2) "lose" =
      some (jsRound ((1000 : ℚ) * 2) - 400) ∧
    calculateDailyCalorieGoal (some 1000) (some 2) "gain" =
      some (jsRound ((1000 : ℚ) * 2) + 500) ∧
    calculateDailyCalorieGoal (some 1000) (some 2) "hold" =
      some (jsRound ((1000 : ℚ) * 2)) ∧
    calculateDailyCalorieGoal (some 0) (some 2) "lose" = none := by
  obtain ⟨-, -, hb0, -, hpos, -⟩ := claim_C1_dailyCalorieGoal_spec
  obtain ⟨h1, h2, h3⟩ := hpos 1000 2 (by norm_num) (by norm_num)
  exact ⟨h1, h2, h3 "hold" (by decide) (by decide), hb0 0 2 "lose" le_rfl⟩

theorem upsertSummary_meals (db : Store) (s : DailySummary) :
    (upsertSummary db s).meals = db.meals := by
  simp only [upsertSummary]
  split <;> rfl

theorem upsertSummary_users (db : Store) (s : DailySummary) :
    (upsertSummary db s).users = db.users := by
  simp only [upsertSummary]
  split <;> rfl

theorem upsertSummary_foodItems (db : Store) (s : DailySummary) :
    (upsertSummary db s).foodItems = db.foodItems := by
  simp only [upsertSummary]
  split <;> rfl

theorem updateDailySummary_meals (uid : ℕ) (date : Moment) (db : Store) :
    (updateDailySummary uid date db).1.meals = db.meals :=
  upsertSummary_meals db (computeDailySummary db uid date)

theorem updateDailySummary_users (uid : ℕ) (date : Moment) (db : Store) :
    (updateDailySummary uid date db).1.users = db.users :=
  upsertSummary_users db (computeDailySummary db uid date)

theorem updateDailySummary_foodItems (uid : ℕ) (date : Moment) (db : Store) :
    (updateDailySummary uid date db).1.foodItems = db.foodItems :=
  upsertSummary_foodItems db (computeDailySummary db uid date)

theorem computeDailySummary_congr (db db2 : Store) (uid : ℕ) (date : Moment)
    (hm : db2.meals = db.meals) (hu : db2.users = db.users) :
    computeDailySummary db2 uid date = computeDailySummary db uid date := by
  unfold computeDailySummary mealsForDay findUser
  rw [hm, hu]

/-- C2: recomputing the daily summary twice in a row with the same
underlying meal set (the first call changes only the summaries table)
produces the same DailySummary row both times — same totals, meals
count and calorie goal. -/
theorem claim_C2_updateDailySummary_idempotent (db : Store) (uid : ℕ)
    (date : Moment) :
    (updateDailySummary uid date (updateDailySummary uid date db).1).2 =
      (updateDailySummary uid date db).2 := by
  show computeDailySummary (updateDailySummary uid date db).1 uid date =
    computeDailySummary db uid date
  exact computeDailySummary_congr db (updateDailySummary uid date db).1 uid
    date (updateDailySummary_meals uid date db)
    (updateDailySummary_users uid date db)

theorem foldl_add_shift (f : Option ℚ → ℚ) (l : List (Option ℚ)) (a : ℚ) :
    l.foldl (fun acc x => acc + f x) a =
      a + l.foldl (fun acc x => acc + f x) 0 := by
  induction l generalizing a with
  | nil => simp
  | cons x xs ih =>
    simp only [List.foldl_cons]
    rw [ih (a + f x), ih (0 + f x)]
    ring

theorem sqlSum_getD (l : List (Option ℚ)) :
    (sqlSum l).getD 0 = l.foldl (fun acc x => acc + x.getD 0) 0 := by
  induction l with
  | nil => rfl
  | cons x xs ih =>
    rw [List.foldl_cons, foldl_add_shift, ← ih]
    cases x with
    | none => cases hs : sqlSum xs <;> simp [sqlSum, hs]
    | some v => cases hs : sqlSum xs <;> simp [sqlSum, hs]

theorem legacy_total_eq (meals : List Meal) (f : Meal → Option ℚ) :
    meals.foldl (fun acc m => acc + (f m).getD 0) 0 =
      (sqlSum (meals.map f)).getD 0 := by
  rw [sqlSum_getD, List.foldl_map]

theorem computeDailySummaryLegacy_eq (db : Store) (uid : ℕ) (date : Moment) :
    computeDailySummaryLegacy db uid date = computeDailySummary db uid date := by
  simp only [computeDailySummaryLegacy, computeDailySummary]
  rw [legacy_total_eq (mealsForDay db uid date) (fun m => m.totalCalories),
    legacy_total_eq (mealsForDay db uid date) (fun m => m.protein),
    legacy_total_eq (mealsForDay db uid date) (fun m => m.carbs),
    legacy_total_eq (mealsForDay db uid date) (fun m => m.fats)]

/-- C10: the two duplicated meal-service variants recompute the daily
summary identically — the database-aggregation implementation and the
in-memory-reduce implementation produce the same DailySummary row (all
totals, meals count and calorie goal) and the same resulting store, for
every store, user and date. -/
theorem claim_C10_updateDailySummary_variants_equal (db : Store) (uid : ℕ)
    (date : Moment) :
    updateDailySummaryLegacy uid date db = updateDailySummary uid date db := by
  unfold updateDailySummaryLegacy updateDailySummary
  rw [computeDailySummaryLegacy_eq]

theorem effectiveCalorieGoal_ne_zero (u : Option User) :
    effectiveCalorieGoal u ≠ 0 := by
  rcases u with - | user
  · decide
  · rcases user with ⟨uid, goalOpt⟩
    rcases goalOpt with - | g
    · norm_num [effectiveCalorieGoal]
    · show (if g = 0 then 2000 else g) ≠ 0
      by_cases h0 : g = 0
      · rw [if_pos h0]
        decide
      · rw [if_neg h0]
        exact h0

/-- C7: `getDailyAnalytics` divides by `user?.dailyCalorieGoal || 2000`,
which is never 0 (a stored 0 or a missing user/goal falls back to 2000),
so `percentConsumed` is the rounding of a genuine rational division — the
NaN / Infinity of a zero denominator cannot arise. -/
theorem claim_C7_dailyAnalytics_percent_guarded (db : Store) (uid : ℕ)
    (date : Moment) :
    (getDailyAnalytics uid date db).calorieGoal ≠ 0 ∧
    (getDailyAnalytics uid date db).percentConsumed =
      jsRound ((getDailyAnalytics uid date db).consumed /
        ((getDailyAnalytics uid date db).calorieGoal : ℚ) * 100) :=
  ⟨effectiveCalorieGoal_ne_zero (findUser db uid), rfl⟩

theorem filter_eq_of_filter_ne (l : List (ℕ × FoodItem)) (k : ℕ) :
    (l.filter (fun fi => fi.1 != k)).filter (fun fi => fi.1 == k) = [] := by
  rw [List.filter_filter]
  apply List.filter_eq_nil_iff.mpr
  intro a ha
  cases h : a.1 == k <;> simp [bne, h]

theorem filter_eq_of_map_pair (items : List FoodItem) (k : ℕ) :
    ((items.map (fun it => (k, it))).filter
        (fun fi => fi.1 == k)).map (fun fi => fi.2) = items := by
  induction items with
  | nil => rfl
  | cons it xs ih => simpa using ih

/-- C3: when the patch given to `updateMeal` contains a `foodItems`
array, every existing FoodItem child of the meal is deleted and replaced
by exactly the new set — a full replace, not a merge. -/
theorem claim_C3_updateMeal_replaces_foodItems (db : Store)
    (mealId uid : ℕ) (p : MealPatch) (items : List FoodItem)
    (existing : Meal) (hp : p.foodItems = some items)
    (hfound : getMealById mealId uid db = some existing) :
    foodItemsOfMeal (updateMeal mealId uid p db).1 mealId = items := by
  unfold updateMeal
  rw [hfound]
  unfold foodItemsOfMeal
  rw [updateDailySummary_foodItems]
  simp only [updateMealTx, hp]
  rw [List.filter_append, List.map_append, filter_eq_of_filter_ne,
    filter_eq_of_map_pair]
  rfl

/-- Concrete food items for the C3 round-trip scenario. -/
def itemA : FoodItem := ⟨"apple", 1, "pieces", 52, 0, 14, 0⟩

def itemB : FoodItem := ⟨"bread", 2, "pieces", 160, 6, 30, 2⟩

def itemC : FoodItem := ⟨"cheese", 30, "grams", 120, 7, 1, 10⟩

/-- Meal used in the C3 round-trip scenario. -/
def mealC3 : Meal :=
  ⟨1, 1, "lunch", none, none, some 500, none, none, none, none, ⟨0, 0⟩⟩

/-- Store after creating `mealC3` with food items `[itemA, itemB]` in an
empty store. -/
def storeC3 : Store := (createMeal mealC3 [itemA, itemB] ⟨[], [], [], []⟩).1

/-- Patch carrying only `foodItems = [itemC]`. -/
def patchC3 : MealPatch :=
  ⟨none, none, none, none, none, none, none, none, none, some [itemC]⟩

/-- C3 witness: create a meal with food items A and B, update it with
food items `[C]`; exactly `[C]` remains attached — A and B are gone. -/
theorem claim_C3_updateMeal_replaces_foodItems_witness :
    foodItemsOfMeal (updateMeal 1 1 patchC3 storeC3).1 1 = [itemC] :=
  claim_C3_updateMeal_replaces_foodItems storeC3 1 1 patchC3 [itemC]
    mealC3 rfl rfl

theorem mealsForDay_congr (db db2 : Store) (uid : ℕ) (d : Moment)
    (h : db2.meals = db.meals) :
    mealsForDay db2 uid d = mealsForDay db uid d := by
  unfold mealsForDay
  rw [h]

theorem upsertSummary_self_mem (db : Store) (s : DailySummary) :
    s ∈ (upsertSummary db s).summaries := by
  simp only [upsertSummary]
  split
  case isTrue h =>
    obtain ⟨r, hr, hmatch⟩ := List.any_eq_true.mp h
    exact List.mem_map.mpr ⟨r, hr, by rw [if_pos hmatch]⟩
  case isFalse h =>
    exact List.mem_append.mpr (Or.inr (List.mem_singleton.mpr rfl))

theorem upsertSummary_preserves_keys (db : Store) (s : DailySummary)
    (r : DailySummary) (hr : r ∈ db.summaries) :
    ∃ r2 ∈ (upsertSummary db s).summaries,
      r2.userId = r.userId ∧ r2.date = r.date := by
  simp only [upsertSummary]
  split
  · refine ⟨if summaryKeyMatch r s.userId s.date then s else r,
      List.mem_map_of_mem _ hr, ?_⟩
    by_cases h : summaryKeyMatch r s.userId s.date
    · rw [if_pos h]
      have h2 : r.userId = s.userId ∧ r.date = s.date := by
        simpa [summaryKeyMatch] using h
      exact ⟨h2.1.symm, h2.2.symm⟩
    · rw [if_neg h]
      exact ⟨rfl, rfl⟩
  · exact ⟨r, List.mem_append.mpr (Or.inl hr), rfl, rfl⟩

theorem computeDailySummary_empty (db : Store) (uid : ℕ) (date : Moment)
    (h : mealsForDay db uid date = []) :
    (computeDailySummary db uid date).totalCalories = 0 ∧
    (computeDailySummary db uid date).totalProtein = 0 ∧
    (computeDailySummary db uid date).totalCarbs = 0 ∧
    (computeDailySummary db uid date).totalFats = 0 ∧
    (computeDailySummary db uid date).mealsCount = 0 := by
  simp [computeDailySummary, h, sqlSum]

/-- C4: deleting a meal never deletes a DailySummary row.  Every summary
key present before `deleteMeal` is still present after it, and when the
deleted meal was found, the summary of its day is recomputed — with all
totals and the meals count equal to zero when no meal of that user
remains on that day. -/
theorem claim_C4_deleteMeal_preserves_summary (db : Store)
    (mealId uid : ℕ) :
    (∀ r ∈ db.summaries,
      ∃ r2 ∈ (deleteMeal mealId uid db).1.summaries,
        r2.userId = r.userId ∧ r2.date = r.date) ∧
    (∀ existing, getMealById mealId uid db = some existing →
      ∃ r ∈ (deleteMeal mealId uid db).1.summaries,
        r.userId = uid ∧ r.date = dayStart existing.mealDate ∧
        (mealsForDay (deleteMeal mealId uid db).1 uid existing.mealDate =
            [] →
          r.totalCalories = 0 ∧ r.totalProtein = 0 ∧ r.totalCarbs = 0 ∧
            r.totalFats = 0 ∧ r.mealsCount = 0)) := by
  cases hfind : getMealById mealId uid db with
  | none =>
    refine ⟨fun r hr => ?_, fun existing heq => ?_⟩
    · simp only [deleteMeal, hfind]
      exact ⟨r, hr, rfl, rfl⟩
    · exact absurd heq (by simp)
  | some found =>
    have hred : (deleteMeal mealId uid db).1 =
        (updateDailySummary uid found.mealDate
          { db with
            meals := db.meals.filter (fun m => m.id != mealId)
            foodItems :=
              db.foodItems.filter (fun fi => fi.1 != mealId) }).1 := by
      simp only [deleteMeal, hfind]
    refine ⟨fun r hr => ?_, fun existing heq => ?_⟩
    · rw [hred]
      exact upsertSummary_preserves_keys _ _ r hr
    · obtain rfl : found = existing := by simpa using heq
      refine ⟨computeDailySummary
          { db with
            meals := db.meals.filter (fun m => m.id != mealId)
            foodItems :=
              db.foodItems.filter (fun fi => fi.1 != mealId) }
          uid found.mealDate, ?_, rfl, rfl, fun hempty => ?_⟩
      · rw [hred]
        exact upsertSummary_self_mem _ _
      · apply computeDailySummary_empty
        have hmeals : (deleteMeal mealId uid db).1.meals =
            ({ db with
              meals := db.meals.filter (fun m => m.id != mealId)
              foodItems := db.foodItems.filter (fun fi => fi.1 != mealId) } :
                Store).meals := by
          rw [hred]
          exact updateDailySummary_meals _ _ _
        rw [← mealsForDay_congr _ _ uid found.mealDate hmeals]
        exact hempty

/-- Store for the C4 scenario: one user with one meal on day 0 and an
existing summary row for that day. -/
def storeC4 : Store :=
  ⟨[⟨1, 1, "dinner", none, none, some 600, none, none, none, none,
      ⟨0, 43200000⟩⟩],
   [], [⟨1, some 2200⟩],
   [⟨1, ⟨0, 0⟩, 600, 0, 0, 0, 2200, 1⟩]⟩

/-- Summary row present in `storeC4` before the deletion. -/
def summaryC4 : DailySummary := ⟨1, ⟨0, 0⟩, 600, 0, 0, 0, 2200, 1⟩

/-- Meal stored in `storeC4`. -/
def mealC4 : Meal :=
  ⟨1, 1, "dinner", none, none, some 600, none, none, none, none,
    ⟨0, 43200000⟩⟩

/-- C4 witness: deleting the only meal of the day leaves the summary row
for that key in place, with totals recomputed to zero. -/
theorem claim_C4_deleteMeal_preserves_summary_witness :
    (∃ r2 ∈ (deleteMeal 1 1 storeC4).1.summaries,
      r2.userId = summaryC4.userId ∧ r2.date = summaryC4.date) ∧
    (∃ r ∈ (deleteMeal 1 1 storeC4).1.summaries,
      r.userId = 1 ∧ r.date = dayStart mealC4.mealDate ∧
      (mealsForDay (deleteMeal 1 1 storeC4).1 1 mealC4.mealDate = [] →
        r.totalCalories = 0 ∧ r.totalProtein = 0 ∧ r.totalCarbs = 0 ∧
          r.totalFats = 0 ∧ r.mealsCount = 0)) :=
  ⟨(claim_C4_deleteMeal_preserves_summary storeC4 1 1).1 summaryC4
      (List.mem_singleton.mpr rfl),
   (claim_C4_deleteMeal_preserves_summary storeC4 1 1).2 mealC4 rfl⟩

theorem filter_map_invariant {α : Type} (l : List α) (f : α → α)
    (p : α → Bool)
    (h : ∀ a ∈ l, f a = a ∨ (p a = false ∧ p (f a) = false)) :
    (l.map f).filter p = l.filter p := by
  induction l with
  | nil => rfl
  | cons x xs ih =>
    have ht : ∀ a ∈ xs, f a = a ∨ (p a = false ∧ p (f a) = false) :=
      fun a ha => h a (List.mem_cons_of_mem x ha)
    rcases h x (List.mem_cons_self x xs) with hfx | ⟨hpx, hpfx⟩
    · simp only [List.map_cons, List.filter_cons, hfx, ih ht]
    · simp [List.filter_cons, hpx, hpfx, ih ht]

theorem summariesFor_congr (db db2 : Store) (uid : ℕ) (d : Moment)
    (h : db2.summaries = db.summaries) :
    summariesFor db2 uid d = summariesFor db uid d := by
  unfold summariesFor
  rw [h]

theorem updateDailySummary_summariesFor_other (db : Store) (uid : ℕ)
    (date : Moment) (uid2 : ℕ) (d2 : Moment)
    (h : ¬(uid2 = uid ∧ d2 = dayStart date)) :
    summariesFor (updateDailySummary uid date db).1 uid2 d2 =
      summariesFor db uid2 d2 := by
  have hne : ∀ r : DailySummary, r.userId = uid → r.date = dayStart date →
      summaryKeyMatch r uid2 d2 = false := by
    intro r h1 h2
    cases hb : summaryKeyMatch r uid2 d2
    · rfl
    · exfalso
      have hb2 : r.userId = uid2 ∧ r.date = d2 := by
        simpa [summaryKeyMatch] using hb
      exact h ⟨hb2.1.symm.trans h1, hb2.2.symm.trans h2⟩
  show summariesFor
    (upsertSummary db (computeDailySummary db uid date)) uid2 d2 = _
  have hs : summaryKeyMatch (computeDailySummary db uid date) uid2 d2 =
      false := hne _ rfl rfl
  unfold summariesFor
  simp only [upsertSummary]
  split
  · apply filter_map_invariant
    intro r hr
    by_cases hm : summaryKeyMatch r (computeDailySummary db uid date).userId
        (computeDailySummary db uid date).date
    · right
      have hr2 : r.userId = (computeDailySummary db uid date).userId ∧
          r.date = (computeDailySummary db uid date).date := by
        simpa [summaryKeyMatch] using hm
      refine ⟨hne r hr2.1 hr2.2, ?_⟩
      rw [if_pos hm]
      exact hs
    · left
      rw [if_neg hm]
  · rw [List.filter_append]
    have hnil : List.filter (fun r => summaryKeyMatch r uid2 d2)
        [computeDailySummary db uid date] = [] := by
      simp [List.filter_cons, hs]
    rw [hnil, List.append_nil]

theorem applyMealPatch_id (m : Meal) (p : MealPatch) :
    (applyMealPatch m p).id = m.id := rfl

theorem find?_patched (l : List Meal) (mealId : ℕ) (p : MealPatch)
    (h : ∃ m ∈ l, m.id = mealId) :
    ∃ m0 ∈ l, m0.id = mealId ∧
      (l.map (fun m =>
          if m.id == mealId then applyMealPatch m p else m)).find?
          (fun m => m.id == mealId) = some (applyMealPatch m0 p) := by
  induction l with
  | nil =>
    obtain ⟨m, hm, -⟩ := h
    exact absurd hm (List.not_mem_nil m)
  | cons x xs ih =>
    by_cases hx : x.id = mealId
    · refine ⟨x, List.mem_cons_self x xs, hx, ?_⟩
      simp only [List.map_cons]
      rw [if_pos (beq_iff_eq.mpr hx)]
      exact List.find?_cons_of_pos _
        (by rw [applyMealPatch_id]; exact beq_iff_eq.mpr hx)
    · have h2 : ∃ m ∈ xs, m.id = mealId := by
        obtain ⟨m, hm, hid⟩ := h
        rcases List.mem_cons.mp hm with rfl | hmem
        · exact absurd hid hx
        · exact ⟨m, hmem, hid⟩
      obtain ⟨m0, hm0, hid0, hfind⟩ := ih h2
      refine ⟨m0, List.mem_cons_of_mem x hm0, hid0, ?_⟩
      simp only [List.map_cons]
      rw [if_neg (by simp [hx]), List.find?_cons_of_neg _ (by simp [hx]),
        hfind]

/-- C9: `updateMeal` recomputes the daily summary only for the meal's
original (pre-update) date: the stored summary rows of the day named by
a changed `mealDate` are left untouched, even though the meal row itself
now carries the new date, while a summary recomputed over the
post-transaction meal set is stored for the original day. -/
theorem claim_C9_updateMeal_original_date_only (db : Store)
    (mealId uid : ℕ) (p : MealPatch) (existing : Meal) (newDate : Moment)
    (hfound : getMealById mealId uid db = some existing)
    (hp : p.mealDate = some newDate)
    (hday : ¬(dayStart newDate = dayStart existing.mealDate)) :
    summariesFor (updateMeal mealId uid p db).1 uid (dayStart newDate) =
      summariesFor db uid (dayStart newDate) ∧
    (∃ r ∈ (updateMeal mealId uid p db).1.summaries,
      r = computeDailySummary (updateMealTx db mealId p) uid
        existing.mealDate) ∧
    (∃ m2, (updateMeal mealId uid p db).2 = some m2 ∧
      m2.mealDate = newDate) := by
  simp only [updateMeal, hfound]
  refine ⟨?_, ?_, ?_⟩
  · rw [updateDailySummary_summariesFor_other (updateMealTx db mealId p)
      uid existing.mealDate uid (dayStart newDate)
      (fun hc => hday hc.2)]
    exact summariesFor_congr db (updateMealTx db mealId p) uid
      (dayStart newDate) rfl
  · exact ⟨computeDailySummary (updateMealTx db mealId p) uid
      existing.mealDate, upsertSummary_self_mem _ _, rfl⟩
  · have hmem : ∃ m ∈ db.meals, m.id = mealId := by
      refine ⟨existing, List.mem_of_find?_eq_some hfound, ?_⟩
      have hpred := List.find?_some hfound
      simp only [Bool.and_eq_true, beq_iff_eq] at hpred
      exact hpred.1
    obtain ⟨m0, -, -, hfind⟩ := find?_patched db.meals mealId p hmem
    exact ⟨applyMealPatch m0 p, hfind, by simp [applyMealPatch, hp]⟩

/-- Meal of the C9 scenario, dated day 0. -/
def mealC9 : Meal :=
  ⟨1, 1, "snack", none, none, some 200, none, none, none, none, ⟨0, 0⟩⟩

/-- Store of the C9 scenario: one user, one meal on day 0, an existing
summary row for day 1 (the future new date). -/
def storeC9 : Store :=
  ⟨[mealC9], [], [⟨1, some 2000⟩], [⟨1, ⟨1, 0⟩, 111, 0, 0, 0, 2000, 1⟩]⟩

/-- Patch of the C9 scenario: moves the meal to day 1. -/
def patchC9 : MealPatch :=
  ⟨none, none, none, none, none, none, none, none, some ⟨1, 0⟩, none⟩

/-- C9 witness: updating the meal's date from day 0 to day 1 leaves the
day-1 summary rows untouched, stores a recomputed summary for day 0, and
the returned meal carries the new date. -/
theorem claim_C9_updateMeal_original_date_only_witness :
    summariesFor (updateMeal 1 1 patchC9 storeC9).1 1
        (dayStart ⟨1, 0⟩) =
      summariesFor storeC9 1 (dayStart ⟨1, 0⟩) ∧
    (∃ r ∈ (updateMeal 1 1 patchC9 storeC9).1.summaries,
      r = computeDailySummary (updateMealTx storeC9 1 patchC9) 1
        mealC9.mealDate) ∧
    (∃ m2, (updateMeal 1 1 patchC9 storeC9).2 = some m2 ∧
      m2.mealDate = ⟨1, 0⟩) :=
  claim_C9_updateMeal_original_date_only storeC9 1 1 patchC9 mealC9
    ⟨1, 0⟩ rfl rfl (by decide)

theorem weekSummaries_mem_iff (st : Moment) (l : List DailySummary)
    (i : ℕ) (s : DailySummary) (hst : st.msOfDay = 0)
    (hs : s ∈ l) (hsd : s.date.msOfDay = 0) :
    s ∈ weekSummaries st l i ↔
      st.day + 7 * i ≤ s.date.day ∧ s.date.day ≤ st.day + 7 * i + 6 := by
  have hmst : (st.msOfDay : ℤ) = 0 := by rw [hst]; rfl
  have hmsd : (s.date.msOfDay : ℤ) = 0 := by rw [hsd]; rfl
  unfold weekSummaries
  rw [List.mem_filter]
  simp only [Bool.and_eq_true, decide_eq_true_eq, weekWindowStart,
    weekWindowEnd, Moment.toMillis, hmst, hmsd]
  constructor
  · rintro ⟨-, h1, h2⟩
    exact ⟨by omega, by omega⟩
  · rintro ⟨h1, h2⟩
    exact ⟨hs, by omega, by omega⟩

/-- C8: `getMonthlyAnalytics` builds `weeklyTrends` as exactly four fixed
7-day windows over the already-fetched month summaries, window `i`
covering days `7·i+1` through `7·i+7` of the month (the window start is
the month start shifted by `7·i` days, not a calendar-week boundary),
and every summary dated past day 28 of the month falls in none of the
four windows. -/
theorem claim_C8_monthly_weeklyTrends (st : Moment)
    (l : List DailySummary) (hst : st.msOfDay = 0)
    (hl : ∀ s ∈ l, s.date.msOfDay = 0) :
    (∀ db uid eom, getMonthlyWeeklyTrends db uid st eom =
      weeklyTrends st (monthlySummaries db uid st eom)) ∧
    (weeklyTrends st l).length = 4 ∧
    (∀ i, ∀ hi : i < (weeklyTrends st l).length,
      (weeklyTrends st l).get ⟨i, hi⟩ = weekTrendOf st l i) ∧
    (∀ i, ∀ s ∈ l, (s ∈ weekSummaries st l i ↔
      st.day + 7 * i ≤ s.date.day ∧ s.date.day ≤ st.day + 7 * i + 6)) ∧
    (∀ s ∈ l, st.day + 28 ≤ s.date.day →
      ∀ i, i < 4 → s ∉ weekSummaries st l i) := by
  refine ⟨fun db uid eom => rfl, by simp [weeklyTrends], ?_, ?_, ?_⟩
  · intro i hi
    simp [weeklyTrends]
  · intro i s hs
    exact weekSummaries_mem_iff st l i s hst hs (hl s hs)
  · intro s hs h28 i hi4 hmem
    have hiff := weekSummaries_mem_iff st l i s hst hs (hl s hs)
    obtain ⟨-, h2⟩ := hiff.mp hmem
    omega

/-- Summary row of the C8 scenario, dated day-of-month 29 (absolute day
28 for a month starting at absolute day 0). -/
def summaryC8 : DailySummary := ⟨1, ⟨28, 0⟩, 500, 0, 0, 0, 2000, 1⟩

/-- C8 witness: the trends list has the four windows, and a summary
dated day 29 of the month is excluded from every window. -/
theorem claim_C8_monthly_weeklyTrends_witness :
    (weeklyTrends ⟨0, 0⟩ [summaryC8]).length = 4 ∧
    summaryC8 ∉ weekSummaries ⟨0, 0⟩ [summaryC8] 0 ∧
    summaryC8 ∉ weekSummaries ⟨0, 0⟩ [summaryC8] 1 ∧
    summaryC8 ∉ weekSummaries ⟨0, 0⟩ [summaryC8] 2 ∧
    summaryC8 ∉ weekSummaries ⟨0, 0⟩ [summaryC8] 3 := by
  have h := claim_C8_monthly_weeklyTrends ⟨0, 0⟩ [summaryC8] rfl
    (by decide)
  have hmem : summaryC8 ∈ [summaryC8] := List.mem_singleton.mpr rfl
  have h28 : (0 : ℤ) + 28 ≤ summaryC8.date.day := by decide
  exact ⟨h.2.1, h.2.2.2.2 summaryC8 hmem h28 0 (by decide),
    h.2.2.2.2 summaryC8 hmem h28 1 (by decide),
    h.2.2.2.2 summaryC8 hmem h28 2 (by decide),
    h.2.2.2.2 summaryC8 hmem h28 3 (by decide)⟩

end CalorieTracker
